import Mathlib

/-!
# Teammate-finder: shallow embedding of the team-membership core

This file embeds the data model (`src/app/models.py`) and the registered
HTTP operations of the team, auth and competition namespaces
(`src/app/routes/teams_restx.py`, `src/app/routes/auth_restx.py`) as pure
Lean functions over an explicit application state, and proves the
spec's claims about them.

Conventions of the embedding:
* Database rows become structures; the three tables become lists in
  `AppState`, with auto-increment ids modelled by `nextTeamId` /
  `nextUserId` counters.
* `Model.query.get(pk)` / `get_or_404(pk)` become `List.find?` on the id;
  a `get_or_404` miss is the `404` early return of the route.
* The many-to-many `team.members` collection is the list of member user
  ids; `user in team.members` is list membership, `append` / `remove`
  are list append / `List.erase`.
* Each route handler returns the new state plus an `HttpResp` carrying
  the HTTP status code and the `msg` string of the source (success
  bodies that return an entity dict are tagged with the source's success
  message, or `""` for the bare created-entity body).
* `@jwt_required` routes take the authenticated requester's user id as
  an argument; the source's unchecked `User.query.get(current_user_id)`
  (which can only miss if the token outlives the user, impossible in
  scope since users are never deleted) is modelled by the id itself.
-/

namespace TeammateFinder

/-- A row of the `users` table (`models.py`, class `User`); profile
fields not involved in any claim are omitted, identity fields kept. -/
structure User where
  id : Nat
  username : String
  email : String
  passwordHash : String
  nickname : Option String
deriving DecidableEq, Repr

/-- A row of the `competitions` table (`models.py`, class `Competition`);
`status` is the free string of the source (`recruiting`/`ongoing`/`ended`). -/
structure Competition where
  id : Nat
  name : String
  descr : String
  status : String
  created_by_user_id : Nat
deriving DecidableEq, Repr

/-- A row of the `teams` table together with its `team_members`
association rows (`models.py`, class `Team`): `members` is the list of
user ids related through `team_members_association`. -/
structure Team where
  id : Nat
  name : String
  descr : Option String
  competition_id : Nat
  leader_id : Nat
  status : String
  members : List Nat
deriving DecidableEq, Repr

/-- The persistent state the routes operate on: the three tables plus
auto-increment counters. -/
structure AppState where
  users : List User
  competitions : List Competition
  teams : List Team
  nextUserId : Nat
  nextTeamId : Nat
deriving DecidableEq, Repr

/-- An HTTP response: status code plus the `msg` field of the JSON body. -/
structure HttpResp where
  code : Nat
  msg : String
deriving DecidableEq, Repr

/-- `User.query.get(uid)`. -/
def findUser (s : AppState) (uid : Nat) : Option User :=
  s.users.find? (fun u => u.id == uid)

/-- `Competition.query.get(cid)`. -/
def findCompetition (s : AppState) (cid : Nat) : Option Competition :=
  s.competitions.find? (fun c => c.id == cid)

/-- `Team.query.get(tid)`. -/
def findTeam (s : AppState) (tid : Nat) : Option Team :=
  s.teams.find? (fun t => t.id == tid)

/-- Commit a mutation of the team row with id `tid`. -/
def updateTeam (s : AppState) (tid : Nat) (t' : Team) : AppState :=
  { s with teams := s.teams.map (fun t => if t.id == tid then t' else t) }

/-- `db.session.delete(team)`: the row and (via the association) its
membership rows disappear. -/
def deleteTeam (s : AppState) (tid : Nat) : AppState :=
  { s with teams := s.teams.filter (fun t => t.id != tid) }

/-- `TeamList.post` (`teams_restx.py` lines 102-130): create a team.
`name` and `competition_id` are `required=True` parser arguments, so a
missing one is rejected with 400 before the handler body runs; then the
competition is `get_or_404`-checked; on success a team in status
`"open"` (the column default) with the requester as leader and sole
member is inserted. -/
def createTeam (s : AppState) (requester : Nat) (name : Option String)
    (descr : Option String) (compId : Option Nat) : AppState × HttpResp :=
  match name with
  | none => (s, ⟨400, "Input payload validation failed"⟩)
  | some nm =>
    match compId with
    | none => (s, ⟨400, "Input payload validation failed"⟩)
    | some cid =>
      match findCompetition s cid with
      | none => (s, ⟨404, "Competition not found"⟩)
      | some _ =>
        let t : Team :=
          { id := s.nextTeamId, name := nm, descr := descr,
            competition_id := cid, leader_id := requester,
            status := "open", members := [requester] }
        ({ s with teams := s.teams ++ [t], nextTeamId := s.nextTeamId + 1 },
         ⟨201, ""⟩)

/-- `TeamResource.get` (`teams_restx.py` lines 139-144): fetch a team. -/
def getTeam (s : AppState) (tid : Nat) : AppState × HttpResp :=
  match findTeam s tid with
  | none => (s, ⟨404, "Team not found"⟩)
  | some _ => (s, ⟨200, ""⟩)

/-- `TeamJoin.post` (`teams_restx.py` lines 173-192): the membership
check (409) runs before the status check (403); then the requester is
appended to the member collection. -/
def joinTeam (s : AppState) (requester : Nat) (tid : Nat) : AppState × HttpResp :=
  match findTeam s tid with
  | none => (s, ⟨404, "Team not found"⟩)
  | some team =>
    if requester ∈ team.members then
      (s, ⟨409, "You are already a member"⟩)
    else if team.status ≠ "open" then
      (s, ⟨403, "Team not open for new members"⟩)
    else
      (updateTeam s tid { team with members := team.members ++ [requester] },
       ⟨200, "Successfully joined the team"⟩)

/-- `TeamLeave.post` (`teams_restx.py` lines 201-223): non-members are
rejected (403); a leader with other members is rejected (403); a sole
leader deletes the team; otherwise the requester is removed. -/
def leaveTeam (s : AppState) (requester : Nat) (tid : Nat) : AppState × HttpResp :=
  match findTeam s tid with
  | none => (s, ⟨404, "Team not found"⟩)
  | some team =>
    if requester ∉ team.members then
      (s, ⟨403, "You are not a member of this team"⟩)
    else if team.leader_id = requester then
      if team.members.length > 1 then
        (s, ⟨403, "Captain must transfer leadership or disband team"⟩)
      else
        (deleteTeam s tid, ⟨200, "Team disbanded as captain left"⟩)
    else
      (updateTeam s tid { team with members := team.members.erase requester },
       ⟨200, "Successfully left the team"⟩)

/-- `TeamMemberRemove.delete` (`teams_restx.py` lines 234-250): leader
check (403) first, then `get_or_404` on the target user, then target
membership (404), then the self-removal guard (403), then removal. -/
def removeMember (s : AppState) (requester : Nat) (tid : Nat)
    (target : Nat) : AppState × HttpResp :=
  match findTeam s tid with
  | none => (s, ⟨404, "Team not found"⟩)
  | some team =>
    if team.leader_id ≠ requester then
      (s, ⟨403, "Forbidden: Only leader can remove members"⟩)
    else
      match findUser s target with
      | none => (s, ⟨404, "User not found"⟩)
      | some u =>
        if target ∉ team.members then
          (s, ⟨404, "User is not a member of this team"⟩)
        else if u.id = team.leader_id then
          (s, ⟨403, "Captain cannot remove themselves"⟩)
        else
          (updateTeam s tid { team with members := team.members.erase target },
           ⟨200, "removed successfully"⟩)

/-- `TeamResource.delete` (`teams_restx.py` lines 150-164): disband,
leader-only. -/
def disbandTeam (s : AppState) (requester : Nat) (tid : Nat) : AppState × HttpResp :=
  match findTeam s tid with
  | none => (s, ⟨404, "Team not found"⟩)
  | some team =>
    if team.leader_id ≠ requester then
      (s, ⟨403, "Forbidden: Only the team leader can disband the team"⟩)
    else
      (deleteTeam s tid, ⟨200, "Team disbanded successfully"⟩)

/-- `TeamList.get` (`teams_restx.py` lines 68-92): read-only listing;
pagination and filtering do not touch the state. -/
def listTeams (s : AppState) : AppState × HttpResp :=
  (s, ⟨200, ""⟩)

/-- `Register.post` (`auth_restx.py` lines 74-98): duplicate-username
check, then duplicate-email check, then insert. -/
def createUser (s : AppState) (username email password : String)
    (nickname : Option String) : AppState × HttpResp :=
  if (s.users.find? (fun u => u.username == username)).isSome then
    (s, ⟨409, "Username already exists"⟩)
  else if (s.users.find? (fun u => u.email == email)).isSome then
    (s, ⟨409, "Email already exists"⟩)
  else
    ({ s with
        users := s.users ++
          [{ id := s.nextUserId, username := username, email := email,
             passwordHash := password, nickname := nickname }],
        nextUserId := s.nextUserId + 1 },
     ⟨201, "User registered successfully"⟩)

/-- The full surface of the registered team namespace
(`teams_restx.py`): every route that can read or write team state. -/
inductive TeamOp where
  | create (requester : Nat) (name : Option String) (descr : Option String)
      (compId : Option Nat)
  | index
  | get (tid : Nat)
  | join (requester : Nat) (tid : Nat)
  | leave (requester : Nat) (tid : Nat)
  | remove (requester : Nat) (tid : Nat) (target : Nat)
  | disband (requester : Nat) (tid : Nat)
deriving DecidableEq, Repr

/-- Dispatch a team-namespace operation. -/
def applyOp (op : TeamOp) (s : AppState) : AppState × HttpResp :=
  match op with
  | .create r n d c => createTeam s r n d c
  | .index => listTeams s
  | .get tid => getTeam s tid
  | .join r tid => joinTeam s r tid
  | .leave r tid => leaveTeam s r tid
  | .remove r tid tgt => removeMember s r tid tgt
  | .disband r tid => disbandTeam s r tid

/-! ## Lookup lemmas for the state helpers -/

theorem findTeam_id {s : AppState} {tid : Nat} {t : Team}
    (h : findTeam s tid = some t) : t.id = tid := by
  have := List.find?_some h
  simpa using this

theorem findTeam_mem {s : AppState} {tid : Nat} {t : Team}
    (h : findTeam s tid = some t) : t ∈ s.teams :=
  List.mem_of_find?_eq_some h

theorem find?_teamId_map_update (l : List Team) (tid : Nat) (t' : Team)
    (ht : t'.id = tid) :
    (l.map (fun t => if t.id == tid then t' else t)).find?
        (fun t => t.id == tid) =
      (l.find? (fun t => t.id == tid)).map (fun _ => t') := by
  induction l with
  | nil => rfl
  | cons a l ih =>
    rw [List.map_cons, List.find?_cons, List.find?_cons]
    by_cases ha : a.id = tid
    · have hpa : (a.id == tid) = true := by simpa using ha
      have hpt : (t'.id == tid) = true := by simpa using ht
      rw [hpa]
      simp only [if_true, hpt]
      rfl
    · have hb : (a.id == tid) = false := by simpa using ha
      rw [hb]
      simp only [Bool.false_eq_true, if_false, hb]
      simpa using ih

theorem find?_teamId_map_update_ne (l : List Team) (tid tid2 : Nat) (t' : Team)
    (ht : t'.id = tid) (hne : tid2 ≠ tid) :
    (l.map (fun t => if t.id == tid then t' else t)).find?
        (fun t => t.id == tid2) =
      l.find? (fun t => t.id == tid2) := by
  have h1 : (t'.id == tid2) = false := by
    simp only [ht, beq_eq_false_iff_ne, ne_eq]
    exact fun h => hne h.symm
  induction l with
  | nil => rfl
  | cons a l ih =>
    rw [List.map_cons, List.find?_cons, List.find?_cons]
    by_cases ha : a.id = tid
    · have hpa : (a.id == tid) = true := by simpa using ha
      have h2 : (a.id == tid2) = false := by
        simp only [ha, beq_eq_false_iff_ne, ne_eq]
        exact fun h => hne h.symm
      rw [hpa, h2]
      simp only [if_true, h1]
      simpa using ih
    · have hb : (a.id == tid) = false := by simpa using ha
      rw [hb]
      simp only [Bool.false_eq_true, if_false]
      by_cases hc : a.id = tid2
      · have hc' : (a.id == tid2) = true := by simpa using hc
        rw [hc']
      · have hc' : (a.id == tid2) = false := by simpa using hc
        rw [hc']
        simpa using ih

theorem find?_teamId_filter_self (l : List Team) (tid : Nat) :
    (l.filter (fun t => t.id != tid)).find? (fun t => t.id == tid) = none := by
  rw [List.find?_eq_none]
  intro x hx
  have := (List.mem_filter.1 hx).2
  simpa using this

theorem find?_teamId_filter_ne (l : List Team) (tid tid2 : Nat)
    (hne : tid2 ≠ tid) :
    (l.filter (fun t => t.id != tid)).find? (fun t => t.id == tid2) =
      l.find? (fun t => t.id == tid2) := by
  induction l with
  | nil => rfl
  | cons a l ih =>
    rw [List.filter_cons, List.find?_cons]
    by_cases ha : a.id = tid
    · have hdrop : (a.id != tid) = false := by simpa using ha
      have h2 : (a.id == tid2) = false := by
        simp only [ha, beq_eq_false_iff_ne, ne_eq]
        exact fun h => hne h.symm
      rw [hdrop, h2]
      simp only [Bool.false_eq_true, if_false]
      exact ih
    · have hkeep : (a.id != tid) = true := by simpa using ha
      rw [hkeep]
      simp only [if_true, List.find?_cons]
      by_cases hc : a.id = tid2
      · have hc' : (a.id == tid2) = true := by simpa using hc
        rw [hc']
      · have hc' : (a.id == tid2) = false := by simpa using hc
        rw [hc']
        exact ih

theorem findTeam_updateTeam_self (s : AppState) (tid : Nat) (t t' : Team)
    (ht : t'.id = tid) (h : findTeam s tid = some t) :
    findTeam (updateTeam s tid t') tid = some t' := by
  simp only [findTeam, updateTeam] at *
  rw [find?_teamId_map_update s.teams tid t' ht, h]
  rfl

theorem findTeam_updateTeam_ne (s : AppState) (tid tid2 : Nat) (t' : Team)
    (ht : t'.id = tid) (hne : tid2 ≠ tid) :
    findTeam (updateTeam s tid t') tid2 = findTeam s tid2 := by
  simp only [findTeam, updateTeam]
  exact find?_teamId_map_update_ne s.teams tid tid2 t' ht hne

theorem findTeam_deleteTeam_self (s : AppState) (tid : Nat) :
    findTeam (deleteTeam s tid) tid = none := by
  simp only [findTeam, deleteTeam]
  exact find?_teamId_filter_self s.teams tid

theorem findTeam_deleteTeam_ne {s : AppState} {tid tid2 : Nat}
    (hne : tid2 ≠ tid) :
    findTeam (deleteTeam s tid) tid2 = findTeam s tid2 := by
  simp only [findTeam, deleteTeam]
  exact find?_teamId_filter_ne s.teams tid tid2 hne

theorem findTeam_append_left {s : AppState} {tid : Nat} {t : Team}
    (t0 : Team) (n : Nat) (h : findTeam s tid = some t) :
    findTeam { s with teams := s.teams ++ [t0], nextTeamId := n } tid = some t := by
  simp only [findTeam] at *
  rw [List.find?_append, h]
  rfl

/-- The per-team roster invariant of the spec: the leader is a member
and the member set is non-empty. -/
def TeamInv (t : Team) : Prop :=
  t.leader_id ∈ t.members ∧ t.members ≠ []

/-- All existing teams satisfy the roster invariant. -/
def StateInv (s : AppState) : Prop :=
  ∀ t ∈ s.teams, TeamInv t

/-! ## How each operation can change the state -/

theorem createTeam_fst (s : AppState) (r : Nat) (n d : Option String)
    (c : Option Nat) :
    (createTeam s r n d c).1 = s ∨
      ∃ nm cid, n = some nm ∧ c = some cid ∧
        (createTeam s r n d c).1 =
          { s with
              teams := s.teams ++
                [{ id := s.nextTeamId, name := nm, descr := d,
                   competition_id := cid, leader_id := r,
                   status := "open", members := [r] }],
              nextTeamId := s.nextTeamId + 1 } := by
  match n with
  | none => left; rfl
  | some nm =>
    match c with
    | none => left; rfl
    | some cid =>
      cases h : findCompetition s cid with
      | none => left; simp [createTeam, h]
      | some comp =>
        right
        exact ⟨nm, cid, rfl, rfl, by simp [createTeam, h]⟩

theorem joinTeam_fst (s : AppState) (r tid : Nat) :
    (joinTeam s r tid).1 = s ∨
      ∃ team, findTeam s tid = some team ∧ r ∉ team.members ∧
        (joinTeam s r tid).1 =
          updateTeam s tid { team with members := team.members ++ [r] } := by
  cases h : findTeam s tid with
  | none => left; simp [joinTeam, h]
  | some team =>
    by_cases hm : r ∈ team.members
    · left; simp [joinTeam, h, hm]
    · by_cases hs : team.status = "open"
      · right; exact ⟨team, rfl, hm, by simp [joinTeam, h, hm, hs]⟩
      · left; simp [joinTeam, h, hm, hs]

theorem leaveTeam_fst (s : AppState) (r tid : Nat) :
    (leaveTeam s r tid).1 = s ∨
      (leaveTeam s r tid).1 = deleteTeam s tid ∨
      ∃ team, findTeam s tid = some team ∧ r ∈ team.members ∧
        team.leader_id ≠ r ∧
        (leaveTeam s r tid).1 =
          updateTeam s tid { team with members := team.members.erase r } := by
  cases h : findTeam s tid with
  | none => left; simp [leaveTeam, h]
  | some team =>
    by_cases hm : r ∈ team.members
    · by_cases hl : team.leader_id = r
      · by_cases hlen : team.members.length > 1
        · left; simp [leaveTeam, h, hm, hl, hlen]
        · right; left; simp [leaveTeam, h, hm, hl, hlen]
      · right; right
        exact ⟨team, rfl, hm, hl, by simp [leaveTeam, h, hm, hl]⟩
    · left; simp [leaveTeam, h, hm]

theorem removeMember_fst (s : AppState) (r tid tgt : Nat) :
    (removeMember s r tid tgt).1 = s ∨
      ∃ team, findTeam s tid = some team ∧ team.leader_id = r ∧
        tgt ∈ team.members ∧ tgt ≠ team.leader_id ∧
        (removeMember s r tid tgt).1 =
          updateTeam s tid { team with members := team.members.erase tgt } := by
  cases h : findTeam s tid with
  | none => left; simp [removeMember, h]
  | some team =>
    by_cases hl : team.leader_id = r
    · cases hu : findUser s tgt with
      | none => left; simp [removeMember, h, hl, hu]
      | some u =>
        have hid : u.id = tgt := by simpa using List.find?_some hu
        by_cases hm : tgt ∈ team.members
        · by_cases hself : u.id = team.leader_id
          · left; simp [removeMember, h, hl, hu, hm, hself]
          · right
            have hself' : ¬ u.id = r := by rw [← hl]; exact hself
            refine ⟨team, rfl, hl, hm, ?_,
              by simp [removeMember, h, hl, hu, hm, hself']⟩
            rw [← hid]; exact hself
        · left; simp [removeMember, h, hl, hu, hm]
    · left; simp [removeMember, h, hl]

theorem disbandTeam_fst (s : AppState) (r tid : Nat) :
    (disbandTeam s r tid).1 = s ∨
      (disbandTeam s r tid).1 = deleteTeam s tid := by
  cases h : findTeam s tid with
  | none => left; simp [disbandTeam, h]
  | some team =>
    by_cases hl : team.leader_id = r
    · right; simp [disbandTeam, h, hl]
    · left; simp [disbandTeam, h, hl]

/-! ## Invariant preservation helpers -/

theorem stateInv_updateTeam {s : AppState} {tid : Nat} {tnew : Team}
    (h : StateInv s) (hnew : TeamInv tnew) : StateInv (updateTeam s tid tnew) := by
  intro t ht
  simp only [updateTeam, List.mem_map] at ht
  obtain ⟨a, ha, rfl⟩ := ht
  by_cases hc : a.id = tid
  · simpa [hc] using hnew
  · have : (a.id == tid) = false := by simpa using hc
    simpa [this] using h a ha

theorem stateInv_deleteTeam {s : AppState} (tid : Nat)
    (h : StateInv s) : StateInv (deleteTeam s tid) := by
  intro t ht
  exact h t (List.mem_filter.1 ht).1

instance (t : Team) : Decidable (TeamInv t) :=
  inferInstanceAs (Decidable (t.leader_id ∈ t.members ∧ t.members ≠ []))

instance (s : AppState) : Decidable (StateInv s) :=
  inferInstanceAs (Decidable (∀ t ∈ s.teams, TeamInv t))

theorem getTeam_fst (s : AppState) (tid : Nat) : (getTeam s tid).1 = s := by
  cases h : findTeam s tid <;> simp [getTeam, h]

/-- **C1.** Roster invariant: every reachable state keeps, for every
existing (non-deleted) team, the leader inside the member set and the
member set non-empty; each public team operation (create, join, leave,
remove member, disband, plus the read-only ones) preserves this. -/
theorem claim_C1_roster_invariant_preserved (op : TeamOp) (s : AppState)
    (h : StateInv s) : StateInv (applyOp op s).1 := by
  cases op with
  | create r n d c =>
    rcases createTeam_fst s r n d c with heq | ⟨nm, cid, -, -, heq⟩
    · simpa only [applyOp, heq] using h
    · simp only [applyOp, heq]
      intro t ht
      rcases List.mem_append.1 ht with hold | hnew
      · exact h t hold
      · rcases List.mem_singleton.1 hnew with rfl
        exact ⟨List.mem_singleton.2 rfl, by simp⟩
  | index => exact h
  | get tid => simpa only [applyOp, getTeam_fst] using h
  | join r tid =>
    rcases joinTeam_fst s r tid with heq | ⟨team, hft, hm, heq⟩
    · simpa only [applyOp, heq] using h
    · simp only [applyOp, heq]
      refine stateInv_updateTeam h ⟨?_, by simp⟩
      exact List.mem_append_left _ (h team (findTeam_mem hft)).1
  | leave r tid =>
    rcases leaveTeam_fst s r tid with heq | heq | ⟨team, hft, hm, hne, heq⟩
    · simpa only [applyOp, heq] using h
    · simp only [applyOp, heq]
      exact stateInv_deleteTeam _ h
    · simp only [applyOp, heq]
      have hmem : team.leader_id ∈ team.members.erase r :=
        (List.mem_erase_of_ne hne).2 (h team (findTeam_mem hft)).1
      exact stateInv_updateTeam h ⟨hmem, List.ne_nil_of_mem hmem⟩
  | remove r tid tgt =>
    rcases removeMember_fst s r tid tgt with heq | ⟨team, hft, hl, hm, hne, heq⟩
    · simpa only [applyOp, heq] using h
    · simp only [applyOp, heq]
      have hmem : team.leader_id ∈ team.members.erase tgt :=
        (List.mem_erase_of_ne (Ne.symm hne)).2 (h team (findTeam_mem hft)).1
      exact stateInv_updateTeam h ⟨hmem, List.ne_nil_of_mem hmem⟩
  | disband r tid =>
    rcases disbandTeam_fst s r tid with heq | heq
    · simpa only [applyOp, heq] using h
    · simp only [applyOp, heq]
      exact stateInv_deleteTeam _ h

/-- A concrete two-user state used to instantiate the theorems: user 1
leads team 1 whose members are users 1 and 2; user 3 is unaffiliated. -/
def demoState : AppState :=
  { users :=
      [ { id := 1, username := "alice", email := "a@x", passwordHash := "h1",
          nickname := none },
        { id := 2, username := "bob", email := "b@x", passwordHash := "h2",
          nickname := none },
        { id := 3, username := "carol", email := "c@x", passwordHash := "h3",
          nickname := none } ],
    competitions :=
      [ { id := 1, name := "hackathon", descr := "d", status := "recruiting",
          created_by_user_id := 1 } ],
    teams :=
      [ { id := 1, name := "Alpha", descr := none, competition_id := 1,
          leader_id := 1, status := "open", members := [1, 2] } ],
    nextUserId := 4, nextTeamId := 2 }

/-- Witness for C1: the invariant holds in the demo state and is
preserved by a concrete join of user 3 into team 1. -/
theorem claim_C1_roster_invariant_preserved_witness :
    StateInv demoState ∧
      StateInv (applyOp (TeamOp.join 3 1) demoState).1 :=
  ⟨by decide, claim_C1_roster_invariant_preserved (TeamOp.join 3 1) demoState
    (by decide)⟩

theorem two_mem_one_lt_length {l : List Nat} {a b : Nat}
    (ha : a ∈ l) (hb : b ∈ l) (hab : a ≠ b) : 1 < l.length := by
  match l with
  | [] => cases ha
  | [x] =>
    rcases List.mem_singleton.1 ha with rfl
    rcases List.mem_singleton.1 hb with rfl
    exact absurd rfl hab
  | x :: y :: l => simp

/-- **C2.** In a team whose leader `A` has at least one other member
`B`, `A`'s leave is rejected with the leader-guard 403 (`InvalidState`)
and the state — hence the member set — is unchanged, while `B`'s leave
succeeds (200), keeps the team alive, and removes exactly `B` from the
member list. -/
theorem claim_C2_leave_leader_guard (s : AppState) (tid A B : Nat) (t : Team)
    (hft : findTeam s tid = some t) (hA : t.leader_id = A)
    (hAm : A ∈ t.members) (hB : B ∈ t.members) (hBA : B ≠ A)
    (hnd : t.members.Nodup) :
    leaveTeam s A tid =
        (s, ⟨403, "Captain must transfer leadership or disband team"⟩) ∧
      (leaveTeam s B tid).2 = ⟨200, "Successfully left the team"⟩ ∧
      findTeam (leaveTeam s B tid).1 tid =
        some { t with members := t.members.erase B } ∧
      B ∉ t.members.erase B := by
  have hlen : t.members.length > 1 := two_mem_one_lt_length hB hAm hBA
  have hlead_ne : t.leader_id ≠ B := by rw [hA]; exact fun h => hBA h.symm
  refine ⟨?_, ?_, ?_, List.Nodup.not_mem_erase hnd⟩
  · simp [leaveTeam, hft, hAm, hA, hlen]
  · simp [leaveTeam, hft, hB, hlead_ne]
  · have hstep : (leaveTeam s B tid).1 =
        updateTeam s tid { t with members := t.members.erase B } := by
      simp [leaveTeam, hft, hB, hlead_ne]
    rw [hstep]
    exact findTeam_updateTeam_self s tid t
      { t with members := t.members.erase B } (findTeam_id (t := t) hft) hft

/-- Witness for C2 in the demo state: leader 1 cannot leave team 1
while member 2 is present; member 2 can, leaving members `[1]`. -/
theorem claim_C2_leave_leader_guard_witness :
    leaveTeam demoState 1 1 =
        (demoState, ⟨403, "Captain must transfer leadership or disband team"⟩) ∧
      (leaveTeam demoState 2 1).2 = ⟨200, "Successfully left the team"⟩ ∧
      findTeam (leaveTeam demoState 2 1).1 1 =
        some { id := 1, name := "Alpha", descr := none, competition_id := 1,
               leader_id := 1, status := "open",
               members := [1, 2].erase 2 } ∧
      (2 : Nat) ∉ [1, 2].erase 2 :=
  claim_C2_leave_leader_guard demoState 1 1 2
    { id := 1, name := "Alpha", descr := none, competition_id := 1,
      leader_id := 1, status := "open", members := [1, 2] }
    (by decide) rfl (by decide) (by decide) (by decide) (by decide)

/-- A state whose only team has its leader (user 1) as sole member. -/
def soloState : AppState :=
  { demoState with
      teams :=
        [ { id := 1, name := "Solo", descr := none, competition_id := 1,
            leader_id := 1, status := "open", members := [1] } ] }

/-- **C3.** A leader who is the sole member and leaves causes the team
to be deleted (the source's disband-on-leave branch, message
`Team disbanded as captain left`) and a subsequent GET of the team id
returns 404; conversely (the "only path" direction, stated for an
arbitrary second scenario) if a leave call makes an existing team
unfindable, the requester was the leader and the sole member. -/
theorem claim_C3_sole_leader_leave_disbands (s : AppState) (tid A : Nat)
    (t : Team) (hft : findTeam s tid = some t) (hA : t.leader_id = A)
    (hsole : t.members = [A]) (s2 : AppState) (tid2 r2 : Nat) (t2 : Team)
    (hft2 : findTeam s2 tid2 = some t2) :
    leaveTeam s A tid =
        (deleteTeam s tid, ⟨200, "Team disbanded as captain left"⟩) ∧
      (getTeam (leaveTeam s A tid).1 tid).2 = ⟨404, "Team not found"⟩ ∧
      (findTeam (leaveTeam s2 r2 tid2).1 tid2 = none →
        t2.leader_id = r2 ∧ t2.members = [r2]) := by
  have hAm : A ∈ t.members := by rw [hsole]; exact List.mem_singleton.2 rfl
  have hlen : ¬ t.members.length > 1 := by rw [hsole]; simp
  have hstep : leaveTeam s A tid =
      (deleteTeam s tid, ⟨200, "Team disbanded as captain left"⟩) := by
    simp [leaveTeam, hft, hAm, hA, hlen]
  refine ⟨hstep, ?_, ?_⟩
  · rw [hstep]
    simp [getTeam, findTeam_deleteTeam_self]
  · intro hnone
    by_cases hm : r2 ∈ t2.members
    · by_cases hl : t2.leader_id = r2
      · by_cases hlen2 : t2.members.length > 1
        · rw [show (leaveTeam s2 r2 tid2).1 = s2 by
              simp [leaveTeam, hft2, hm, hl, hlen2]] at hnone
          rw [hft2] at hnone
          cases hnone
        · refine ⟨hl, ?_⟩
          match hmm : t2.members with
          | [] => rw [hmm] at hm; cases hm
          | [x] =>
            rw [hmm] at hm
            rcases List.mem_singleton.1 hm with rfl
            rfl
          | x :: y :: l => rw [hmm] at hlen2; simp at hlen2
      · rw [show (leaveTeam s2 r2 tid2).1 =
            updateTeam s2 tid2 { t2 with members := t2.members.erase r2 } by
              simp [leaveTeam, hft2, hm, hl]] at hnone
        rw [findTeam_updateTeam_self s2 tid2 t2
          { t2 with members := t2.members.erase r2 }
          (findTeam_id (t := t2) hft2) hft2] at hnone
        cases hnone
    · rw [show (leaveTeam s2 r2 tid2).1 = s2 by
          simp [leaveTeam, hft2, hm]] at hnone
      rw [hft2] at hnone
      cases hnone

/-- Witness for C3: in `soloState` the sole leader's leave deletes team
1 and the follow-up GET is a 404; the only-path implication is
instantiated on the demo state where user 2's leave does not delete. -/
theorem claim_C3_sole_leader_leave_disbands_witness :
    leaveTeam soloState 1 1 =
        (deleteTeam soloState 1, ⟨200, "Team disbanded as captain left"⟩) ∧
      (getTeam (leaveTeam soloState 1 1).1 1).2 = ⟨404, "Team not found"⟩ ∧
      (findTeam (leaveTeam demoState 2 1).1 1 = none →
        (1 : Nat) = 2 ∧ [1, 2] = [2]) :=
  claim_C3_sole_leader_leave_disbands soloState 1 1
    { id := 1, name := "Solo", descr := none, competition_id := 1,
      leader_id := 1, status := "open", members := [1] }
    (by decide) rfl rfl demoState 1 2
    { id := 1, name := "Alpha", descr := none, competition_id := 1,
      leader_id := 1, status := "open", members := [1, 2] }
    (by decide)

/-- **C4.** A user who is already a member and joins the same team
again gets the 409 conflict and the whole state — in particular the
member set — is returned unchanged, so no duplicate entry appears. -/
theorem claim_C4_double_join_conflict (s : AppState) (tid r : Nat) (t : Team)
    (hft : findTeam s tid = some t) (hm : r ∈ t.members) :
    joinTeam s r tid = (s, ⟨409, "You are already a member"⟩) := by
  simp [joinTeam, hft, hm]

/-- Witness for C4: leader 1 of team 1 re-joining gets the conflict. -/
theorem claim_C4_double_join_conflict_witness :
    joinTeam demoState 1 1 = (demoState, ⟨409, "You are already a member"⟩) :=
  claim_C4_double_join_conflict demoState 1 1
    { id := 1, name := "Alpha", descr := none, competition_id := 1,
      leader_id := 1, status := "open", members := [1, 2] }
    (by decide) (by decide)

/-- The demo state with team 1 closed to new members. -/
def closedState : AppState :=
  { demoState with
      teams :=
        [ { id := 1, name := "Alpha", descr := none, competition_id := 1,
            leader_id := 1, status := "closed", members := [1, 2] } ] }

/-- Counterexample to C5 as stated: on a CLOSED team the result does
depend on who the requester is, because `TeamJoin.post` checks
membership before status — member 1 joining closed team 1 receives the
409 `AlreadyMember` conflict, not the 403 `TeamNotOpen` error. -/
theorem claim_C5_counterexample :
    (joinTeam closedState 1 1).2 = ⟨409, "You are already a member"⟩ ∧
      (joinTeam closedState 1 1).2 ≠ ⟨403, "Team not open for new members"⟩ := by
  decide

/-- **C5 (amended).** Join on a CLOSED team fails with the 403
`TeamNotOpen` error for every requester who is not already a member of
the team (a requester who is already a member gets the 409 conflict
instead); the state is unchanged. -/
theorem claim_C5_closed_team_join_rejected (s : AppState) (tid r : Nat)
    (t : Team) (hft : findTeam s tid = some t) (hst : t.status = "closed")
    (hm : r ∉ t.members) :
    joinTeam s r tid = (s, ⟨403, "Team not open for new members"⟩) := by
  have hso : t.status ≠ "open" := by rw [hst]; decide
  simp [joinTeam, hft, hm, hso]

/-- Witness for amended C5: outsider 3 joining closed team 1 gets 403. -/
theorem claim_C5_closed_team_join_rejected_witness :
    joinTeam closedState 3 1 =
      (closedState, ⟨403, "Team not open for new members"⟩) :=
  claim_C5_closed_team_join_rejected closedState 1 3
    { id := 1, name := "Alpha", descr := none, competition_id := 1,
      leader_id := 1, status := "closed", members := [1, 2] }
    (by decide) rfl (by decide)

/-- **C6.** Team creation: with an existing competition and a name
present, a new team in status `open` led by the (authenticated)
requester with member set `{requester}` is appended; a dangling
`competition_id` yields the 404 `CompetitionNotFound`; a missing name is
rejected by the required-argument parser with a 400 validation error. -/
theorem claim_C6_create_team (s : AppState) (r cid : Nat) (nm : String)
    (d : Option String) (u : User) (c : Competition)
    (_hauth : findUser s r = some u) :
    (findCompetition s cid = some c →
      createTeam s r (some nm) d (some cid) =
        ({ s with
            teams := s.teams ++
              [{ id := s.nextTeamId, name := nm, descr := d,
                 competition_id := cid, leader_id := r,
                 status := "open", members := [r] }],
            nextTeamId := s.nextTeamId + 1 },
         ⟨201, ""⟩)) ∧
      (findCompetition s cid = none →
        createTeam s r (some nm) d (some cid) =
          (s, ⟨404, "Competition not found"⟩)) ∧
      createTeam s r none d (some cid) =
        (s, ⟨400, "Input payload validation failed"⟩) := by
  refine ⟨?_, ?_, rfl⟩
  · intro h
    simp [createTeam, h]
  · intro h
    simp [createTeam, h]

/-- Witness for C6: user 3 creates team `Beta` under competition 1 of
the demo state (201), a dangling competition id 99 gives 404, and a
missing name gives 400. -/
theorem claim_C6_create_team_witness :
    createTeam demoState 3 (some "Beta") none (some 1) =
        ({ demoState with
            teams := demoState.teams ++
              [{ id := demoState.nextTeamId, name := "Beta", descr := none,
                 competition_id := 1, leader_id := 3,
                 status := "open", members := [3] }],
            nextTeamId := demoState.nextTeamId + 1 },
         ⟨201, ""⟩) ∧
      createTeam demoState 3 (some "Beta") none (some 99) =
        (demoState, ⟨404, "Competition not found"⟩) ∧
      createTeam demoState 3 none none (some 1) =
        (demoState, ⟨400, "Input payload validation failed"⟩) :=
  ⟨(claim_C6_create_team demoState 3 1 "Beta" none
      { id := 3, username := "carol", email := "c@x", passwordHash := "h3",
        nickname := none }
      { id := 1, name := "hackathon", descr := "d", status := "recruiting",
        created_by_user_id := 1 }
      (by decide)).1 (by decide),
   (claim_C6_create_team demoState 3 99 "Beta" none
      { id := 3, username := "carol", email := "c@x", passwordHash := "h3",
        nickname := none }
      { id := 1, name := "hackathon", descr := "d", status := "recruiting",
        created_by_user_id := 1 }
      (by decide)).2.1 (by decide),
   (claim_C6_create_team demoState 3 1 "Beta" none
      { id := 3, username := "carol", email := "c@x", passwordHash := "h3",
        nickname := none }
      { id := 1, name := "hackathon", descr := "d", status := "recruiting",
        created_by_user_id := 1 }
      (by decide)).2.2⟩

/-- **C7.** Member removal: a non-leader requester gets the 403
`Forbidden` and the state is untouched; the leader naming themselves
gets the 403 self-removal guard; the leader naming a non-leader current
member removes exactly that member. -/
theorem claim_C7_remove_member (s : AppState) (tid r tgt A : Nat)
    (t : Team) (u v : User) (hft : findTeam s tid = some t)
    (hA : t.leader_id = A) :
    (r ≠ A →
      removeMember s r tid tgt =
        (s, ⟨403, "Forbidden: Only leader can remove members"⟩)) ∧
      (findUser s A = some u → A ∈ t.members →
        removeMember s A tid A =
          (s, ⟨403, "Captain cannot remove themselves"⟩)) ∧
      (findUser s tgt = some v → tgt ∈ t.members → tgt ≠ A →
        (removeMember s A tid tgt).2 = ⟨200, "removed successfully"⟩ ∧
          findTeam (removeMember s A tid tgt).1 tid =
            some { t with members := t.members.erase tgt }) := by
  refine ⟨?_, ?_, ?_⟩
  · intro hr
    have hne : t.leader_id ≠ r := by rw [hA]; exact fun h => hr h.symm
    simp [removeMember, hft, hne]
  · intro hu hm
    have hid : u.id = A := by simpa using List.find?_some hu
    have hself : u.id = t.leader_id := by rw [hid, hA]
    simp [removeMember, hft, hA, hu, hm, hself]
  · intro hv hm hne
    have hid : v.id = tgt := by simpa using List.find?_some hv
    have hselfA : ¬ v.id = A := by rw [hid]; exact hne
    have hstep : (removeMember s A tid tgt).1 =
        updateTeam s tid { t with members := t.members.erase tgt } := by
      simp [removeMember, hft, hA, hv, hm, hselfA]
    refine ⟨by simp [removeMember, hft, hA, hv, hm, hselfA], ?_⟩
    rw [hstep]
    exact findTeam_updateTeam_self s tid t
      { t with members := t.members.erase tgt } (findTeam_id (t := t) hft) hft

/-- Witness for C7 in the demo state: outsider 3 is forbidden, leader 1
cannot remove themselves, and leader 1 removing member 2 succeeds. -/
theorem claim_C7_remove_member_witness :
    removeMember demoState 3 1 2 =
        (demoState, ⟨403, "Forbidden: Only leader can remove members"⟩) ∧
      removeMember demoState 1 1 1 =
        (demoState, ⟨403, "Captain cannot remove themselves"⟩) ∧
      ((removeMember demoState 1 1 2).2 = ⟨200, "removed successfully"⟩ ∧
        findTeam (removeMember demoState 1 1 2).1 1 =
          some { id := 1, name := "Alpha", descr := none,
                 competition_id := 1, leader_id := 1, status := "open",
                 members := [1, 2].erase 2 }) :=
  ⟨(claim_C7_remove_member demoState 1 3 2 1
      { id := 1, name := "Alpha", descr := none, competition_id := 1,
        leader_id := 1, status := "open", members := [1, 2] }
      { id := 1, username := "alice", email := "a@x", passwordHash := "h1",
        nickname := none }
      { id := 2, username := "bob", email := "b@x", passwordHash := "h2",
        nickname := none }
      (by decide) rfl).1 (by decide),
   (claim_C7_remove_member demoState 1 3 2 1
      { id := 1, name := "Alpha", descr := none, competition_id := 1,
        leader_id := 1, status := "open", members := [1, 2] }
      { id := 1, username := "alice", email := "a@x", passwordHash := "h1",
        nickname := none }
      { id := 2, username := "bob", email := "b@x", passwordHash := "h2",
        nickname := none }
      (by decide) rfl).2.1 (by decide) (by decide),
   (claim_C7_remove_member demoState 1 3 2 1
      { id := 1, name := "Alpha", descr := none, competition_id := 1,
        leader_id := 1, status := "open", members := [1, 2] }
      { id := 1, username := "alice", email := "a@x", passwordHash := "h1",
        nickname := none }
      { id := 2, username := "bob", email := "b@x", passwordHash := "h2",
        nickname := none }
      (by decide) rfl).2.2 (by decide) (by decide) (by decide)⟩

/-- `applyOp` never changes the `name`, `descr` or `status` column of a
team that exists before and after the operation: the team namespace has
no metadata-update route. -/
theorem applyOp_preserves_metadata (op : TeamOp) (s : AppState) (q : Nat)
    (t t' : Team) (h1 : findTeam s q = some t)
    (h2 : findTeam (applyOp op s).1 q = some t') :
    t'.name = t.name ∧ t'.descr = t.descr ∧ t'.status = t.status := by
  have same : ∀ {a b : Team}, some a = some b →
      b.name = a.name ∧ b.descr = a.descr ∧ b.status = a.status := by
    rintro a b h
    cases h
    exact ⟨rfl, rfl, rfl⟩
  cases op with
  | create r n d c =>
    rcases createTeam_fst s r n d c with heq | ⟨nm, cid, -, -, heq⟩
    · rw [applyOp, heq, h1] at h2
      exact same h2
    · rw [applyOp, heq] at h2
      rw [findTeam_append_left _ (s.nextTeamId + 1) h1] at h2
      exact same h2
  | index =>
    rw [applyOp] at h2
    rw [show (listTeams s).1 = s from rfl, h1] at h2
    exact same h2
  | get tid =>
    rw [applyOp, getTeam_fst, h1] at h2
    exact same h2
  | join r tid =>
    rcases joinTeam_fst s r tid with heq | ⟨team, hft, -, heq⟩
    · rw [applyOp, heq, h1] at h2
      exact same h2
    · rw [applyOp, heq] at h2
      by_cases hq : q = tid
      · subst hq
        rw [findTeam_updateTeam_self s q team
          { team with members := team.members ++ [r] }
          (findTeam_id (t := team) hft) hft] at h2
        rw [hft] at h1
        obtain ⟨hn, hd, hs⟩ := same h2
        obtain ⟨hn2, hd2, hs2⟩ := same h1
        exact ⟨hn.trans hn2.symm, hd.trans hd2.symm, hs.trans hs2.symm⟩
      · rw [findTeam_updateTeam_ne s tid q
          { team with members := team.members ++ [r] }
          (findTeam_id (t := team) hft) hq, h1] at h2
        exact same h2
  | leave r tid =>
    rcases leaveTeam_fst s r tid with heq | heq | ⟨team, hft, -, -, heq⟩
    · rw [applyOp, heq, h1] at h2
      exact same h2
    · rw [applyOp, heq] at h2
      by_cases hq : q = tid
      · subst hq
        rw [findTeam_deleteTeam_self] at h2
        cases h2
      · rw [findTeam_deleteTeam_ne hq, h1] at h2
        exact same h2
    · rw [applyOp, heq] at h2
      by_cases hq : q = tid
      · subst hq
        rw [findTeam_updateTeam_self s q team
          { team with members := team.members.erase r }
          (findTeam_id (t := team) hft) hft] at h2
        rw [hft] at h1
        obtain ⟨hn, hd, hs⟩ := same h2
        obtain ⟨hn2, hd2, hs2⟩ := same h1
        exact ⟨hn.trans hn2.symm, hd.trans hd2.symm, hs.trans hs2.symm⟩
      · rw [findTeam_updateTeam_ne s tid q
          { team with members := team.members.erase r }
          (findTeam_id (t := team) hft) hq, h1] at h2
        exact same h2
  | remove r tid tgt =>
    rcases removeMember_fst s r tid tgt with heq | ⟨team, hft, -, -, -, heq⟩
    · rw [applyOp, heq, h1] at h2
      exact same h2
    · rw [applyOp, heq] at h2
      by_cases hq : q = tid
      · subst hq
        rw [findTeam_updateTeam_self s q team
          { team with members := team.members.erase tgt }
          (findTeam_id (t := team) hft) hft] at h2
        rw [hft] at h1
        obtain ⟨hn, hd, hs⟩ := same h2
        obtain ⟨hn2, hd2, hs2⟩ := same h1
        exact ⟨hn.trans hn2.symm, hd.trans hd2.symm, hs.trans hs2.symm⟩
      · rw [findTeam_updateTeam_ne s tid q
          { team with members := team.members.erase tgt }
          (findTeam_id (t := team) hft) hq, h1] at h2
        exact same h2
  | disband r tid =>
    rcases disbandTeam_fst s r tid with heq | heq
    · rw [applyOp, heq, h1] at h2
      exact same h2
    · rw [applyOp, heq] at h2
      by_cases hq : q = tid
      · subst hq
        rw [findTeam_deleteTeam_self] at h2
        cases h2
      · rw [findTeam_deleteTeam_ne hq, h1] at h2
        exact same h2

/-- The proposition that the team API surface contains some operation
able to change an existing team's metadata (`name` / `description` /
`status`) — what C8's `update_team_metadata` would have to do. -/
def teamMetadataUpdatable : Prop :=
  ∃ (op : TeamOp) (s : AppState) (tid : Nat) (t t' : Team),
    findTeam s tid = some t ∧ findTeam (applyOp op s).1 tid = some t' ∧
      (t'.name ≠ t.name ∨ t'.descr ≠ t.descr ∨ t'.status ≠ t.status)

/-- Counterexample to C8 as stated: no operation of the registered team
namespace can change any existing team's name, description or status —
the claimed `update_team_metadata` operation does not exist in the
source. -/
theorem claim_C8_counterexample : ¬ teamMetadataUpdatable := by
  rintro ⟨op, s, tid, t, t', h1, h2, h3⟩
  obtain ⟨hn, hd, hs⟩ := applyOp_preserves_metadata op s tid t t' h1 h2
  rcases h3 with h | h | h
  · exact h hn
  · exact h hd
  · exact h hs

/-- **C8 (amended).** The source provides no team-metadata-update
operation: across every operation of the team namespace, a team that
exists before and after keeps its name, description and status
unchanged (only rosters change, and only competitions have a
creator-only metadata update). -/
theorem claim_C8_no_metadata_update (op : TeamOp) (s : AppState)
    (tid : Nat) (t t' : Team) (h1 : findTeam s tid = some t)
    (h2 : findTeam (applyOp op s).1 tid = some t') :
    t'.name = t.name ∧ t'.descr = t.descr ∧ t'.status = t.status :=
  applyOp_preserves_metadata op s tid t t' h1 h2

/-- Witness for amended C8: user 3 joining team 1 of the demo state
leaves the team's name, description and status intact. -/
theorem claim_C8_no_metadata_update_witness :
    ({ id := 1, name := "Alpha", descr := none, competition_id := 1,
       leader_id := 1, status := "open",
       members := [1, 2, 3] } : Team).name = "Alpha" ∧
      ({ id := 1, name := "Alpha", descr := none, competition_id := 1,
         leader_id := 1, status := "open",
         members := [1, 2, 3] } : Team).descr = none ∧
      ({ id := 1, name := "Alpha", descr := none, competition_id := 1,
         leader_id := 1, status := "open",
         members := [1, 2, 3] } : Team).status = "open" := by
  have h := claim_C8_no_metadata_update (TeamOp.join 3 1) demoState 1
    { id := 1, name := "Alpha", descr := none, competition_id := 1,
      leader_id := 1, status := "open", members := [1, 2] }
    { id := 1, name := "Alpha", descr := none, competition_id := 1,
      leader_id := 1, status := "open", members := [1, 2, 3] }
    (by decide) (by decide)
  exact h

/-- **C9.** Registration: a request whose username already belongs to
an existing user is rejected with the 409 `Username already exists`
conflict, and one whose username is fresh but whose email already
belongs to an existing user is rejected with the 409
`Email already exists` conflict; in both cases the returned state is
the input state, so no user record is created. -/
theorem claim_C9_duplicate_registration (s : AppState)
    (un em pw : String) (nick : Option String) :
    ((∃ u ∈ s.users, u.username = un) →
      createUser s un em pw nick = (s, ⟨409, "Username already exists"⟩)) ∧
      ((∀ u ∈ s.users, u.username ≠ un) → (∃ u ∈ s.users, u.email = em) →
        createUser s un em pw nick = (s, ⟨409, "Email already exists"⟩)) := by
  constructor
  · intro h
    have hfind : (s.users.find? (fun u => u.username == un)).isSome := by
      rw [List.find?_isSome]
      obtain ⟨u, hu, he⟩ := h
      exact ⟨u, hu, by simpa using he⟩
    simp [createUser, hfind]
  · intro hno h
    have hnone : (s.users.find? (fun u => u.username == un)).isSome = false := by
      rw [Bool.eq_false_iff]
      intro hs
      obtain ⟨u, hu, he⟩ := List.find?_isSome.1 hs
      exact hno u hu (by simpa using he)
    have hfind : (s.users.find? (fun u => u.email == em)).isSome := by
      rw [List.find?_isSome]
      obtain ⟨u, hu, he⟩ := h
      exact ⟨u, hu, by simpa using he⟩
    simp [createUser, hnone, hfind]

/-- Witness for C9: registering username `alice` again is a username
conflict, and registering fresh username `dave` with `alice`'s email is
an email conflict; the demo state is returned untouched both times. -/
theorem claim_C9_duplicate_registration_witness :
    createUser demoState "alice" "new@x" "pw" none =
        (demoState, ⟨409, "Username already exists"⟩) ∧
      createUser demoState "dave" "a@x" "pw" none =
        (demoState, ⟨409, "Email already exists"⟩) :=
  ⟨(claim_C9_duplicate_registration demoState "alice" "new@x" "pw" none).1
      (by decide),
   (claim_C9_duplicate_registration demoState "dave" "a@x" "pw" none).2
      (by decide) (by decide)⟩

/-- Overwrite the status of competition `cid`, leaving everything else
(including all team rows) alone; used to express that team creation is
insensitive to competition status. -/
def setCompStatus (s : AppState) (cid : Nat) (st : String) : AppState :=
  { s with
      competitions := s.competitions.map
        (fun c => if c.id == cid then { c with status := st } else c) }

theorem find?_compId_map_status (l : List Competition) (cid : Nat)
    (st : String) :
    (l.map (fun c => if c.id == cid then { c with status := st } else c)).find?
        (fun c => c.id == cid) =
      (l.find? (fun c => c.id == cid)).map
        (fun c => { c with status := st }) := by
  induction l with
  | nil => rfl
  | cons a l ih =>
    rw [List.map_cons, List.find?_cons, List.find?_cons]
    by_cases ha : a.id = cid
    · have hpa : (a.id == cid) = true := by simpa using ha
      rw [hpa]
      simp only [if_true, hpa]
      rfl
    · have hb : (a.id == cid) = false := by simpa using ha
      rw [hb]
      simp only [Bool.false_eq_true, if_false, hb]
      simpa using ih

theorem findCompetition_setCompStatus (s : AppState) (cid : Nat)
    (st : String) (c : Competition) (hc : findCompetition s cid = some c) :
    findCompetition (setCompStatus s cid st) cid =
      some { c with status := st } := by
  simp only [findCompetition, setCompStatus] at *
  rw [find?_compId_map_status s.competitions cid st, hc]
  rfl

/-- **C10.** `TeamList.post` checks only that the referenced
competition exists, never its status: against any existing competition
— whatever its status, e.g. `ended` or `ongoing` — creation with a
valid name succeeds with 201 and appends the same new team row that it
would append were the competition's status overwritten with any other
value (such as `recruiting`). -/
theorem claim_C10_create_ignores_competition_status (s : AppState)
    (r cid : Nat) (nm : String) (d : Option String) (c : Competition)
    (st : String) (hc : findCompetition s cid = some c) :
    (createTeam s r (some nm) d (some cid)).2 = ⟨201, ""⟩ ∧
      (createTeam s r (some nm) d (some cid)).1.teams =
        s.teams ++
          [{ id := s.nextTeamId, name := nm, descr := d,
             competition_id := cid, leader_id := r,
             status := "open", members := [r] }] ∧
      (createTeam (setCompStatus s cid st) r (some nm) d (some cid)).2 =
        (createTeam s r (some nm) d (some cid)).2 ∧
      (createTeam (setCompStatus s cid st) r (some nm) d (some cid)).1.teams =
        (createTeam s r (some nm) d (some cid)).1.teams := by
  have hc' := findCompetition_setCompStatus s cid st c hc
  have hteams : (setCompStatus s cid st).teams = s.teams := rfl
  have hnext : (setCompStatus s cid st).nextTeamId = s.nextTeamId := rfl
  refine ⟨by simp [createTeam, hc], by simp [createTeam, hc], ?_, ?_⟩
  · simp [createTeam, hc, hc']
  · simp [createTeam, hc, hc', hteams, hnext]

/-- A copy of the demo state whose only competition has ended. -/
def endedState : AppState :=
  { demoState with
      competitions :=
        [ { id := 1, name := "hackathon", descr := "d", status := "ended",
            created_by_user_id := 1 } ] }

/-- Witness for C10: creating a team under the `ended` competition
succeeds with 201 and appends the same row as under any overwritten
status (`recruiting` here). -/
theorem claim_C10_create_ignores_competition_status_witness :
    (createTeam endedState 3 (some "Beta") none (some 1)).2 = ⟨201, ""⟩ ∧
      (createTeam endedState 3 (some "Beta") none (some 1)).1.teams =
        endedState.teams ++
          [{ id := endedState.nextTeamId, name := "Beta", descr := none,
             competition_id := 1, leader_id := 3,
             status := "open", members := [3] }] ∧
      (createTeam (setCompStatus endedState 1 "recruiting") 3 (some "Beta")
            none (some 1)).2 =
        (createTeam endedState 3 (some "Beta") none (some 1)).2 ∧
      (createTeam (setCompStatus endedState 1 "recruiting") 3 (some "Beta")
            none (some 1)).1.teams =
        (createTeam endedState 3 (some "Beta") none (some 1)).1.teams :=
  claim_C10_create_ignores_competition_status endedState 3 1 "Beta" none
    { id := 1, name := "hackathon", descr := "d", status := "ended",
      created_by_user_id := 1 }
    "recruiting" (by decide)

end TeammateFinder
